import Mathlib

/-!
Shallow embedding of the raysurfer-ts caching layer.

Covered source code:
- the Transport retry loop (src/client.ts, RaySurfer.request);
- the change-set detector and the programmatic tool-calling session
  (ProgrammaticToolCallingSession and its helpers);
- the stream-wrapping session orchestrator (RaysurferQuery).

Machine integers do not occur on the verified paths; JavaScript strings are
modelled as Lean String, byte buffers read from disk as String where a
NUL character marks the binary case (for UTF-8 encoded data, the byte 0
occurs in the encoding exactly when the code point 0 occurs in the decoded
text, so the two views of the includes(0) test agree).
-/

/-! ## Transport: RaySurfer.request (src/client.ts) -/

/-- Retry budget beyond the first attempt (src/client.ts, MAX_RETRIES). -/
def MAX_RETRIES : Nat := 3

/-- Statuses the transport treats as retryable (src/client.ts,
RETRYABLE_STATUS_CODES). -/
def RETRYABLE_STATUS_CODES : List Nat := [429, 500, 502, 503, 504]

/-- Errors surfaced by RaySurfer.request, mirroring src/errors.ts.
networkFailure stands for a rethrown fetch-level TypeError. -/
inductive TransportError where
  | authenticationError
  | rateLimitError (body : String) (retryAfter : Option Nat)
  | cacheUnavailableError (body : String) (statusCode : Nat)
  | apiError (body : String) (statusCode : Nat)
  | networkFailure
  deriving DecidableEq

/-- One HTTP response as seen by the retry loop: status code, body text and
the already-parsed Retry-After header. -/
structure HttpResponse where
  status : Nat
  body : String
  retryAfter : Option Nat
  deriving DecidableEq

/-- Outcome of one fetch attempt: a response, or a connection-level error
(a TypeError thrown by fetch). -/
inductive AttemptOutcome where
  | response (r : HttpResponse)
  | networkError
  deriving DecidableEq

/-- Response.ok of the fetch API: status in the 200-299 range. -/
def statusOk (s : Nat) : Bool := 200 ≤ s && s < 300

/-- One iteration of the retry loop of RaySurfer.request at a given attempt
index: none means continue with the next attempt, some r means the loop
terminates with result r. Mirrors src/client.ts lines 1148-1213. -/
def requestStep (attempt : Nat) : AttemptOutcome → Option (Except TransportError String)
  | .networkError =>
      if attempt < MAX_RETRIES then none else some (.error .networkFailure)
  | .response r =>
      if r.status = 401 then some (.error .authenticationError)
      else if r.status ∈ RETRYABLE_STATUS_CODES then
        if r.status = 429 then
          if attempt < MAX_RETRIES then none
          else some (.error (.rateLimitError r.body r.retryAfter))
        else
          if attempt < MAX_RETRIES then none
          else some (.error (.cacheUnavailableError r.body r.status))
      else if statusOk r.status then some (.ok r.body)
      else some (.error (.apiError r.body r.status))

/-- The retry loop, driven by the sequence of attempt outcomes; returns the
final result together with the number of attempts made. The fuel starts at
MAX_RETRIES + 1 and the loop never runs out of it, because requestStep only
returns none when attempt < MAX_RETRIES. -/
def requestFuel (attempts : Nat → AttemptOutcome) :
    Nat → Nat → Except TransportError String × Nat
  | attempt, 0 => (.error .networkFailure, attempt)
  | attempt, fuel + 1 =>
      match requestStep attempt (attempts attempt) with
      | some r => (r, attempt + 1)
      | none => requestFuel attempts (attempt + 1) fuel

/-- RaySurfer.request as a function of the attempt outcomes: the surfaced
result and the number of attempts performed. -/
def request (attempts : Nat → AttemptOutcome) : Except TransportError String × Nat :=
  requestFuel attempts 0 (MAX_RETRIES + 1)

/-- C5: if every attempt receives a retryable 5xx status (500/502/503/504),
exactly 4 attempts occur (1 initial + 3 retries) and the final surfaced
error is CacheUnavailableError carrying that status; no fifth attempt is
made. -/
theorem request_retryable_5xx_exhausts
    (attempts : Nat → AttemptOutcome) (s : Nat)
    (hs : s ∈ [500, 502, 503, 504])
    (h : ∀ i, i ≤ MAX_RETRIES → ∃ b ra, attempts i = .response ⟨s, b, ra⟩) :
    (request attempts).2 = 4 ∧
      ∃ b, (request attempts).1 = .error (.cacheUnavailableError b s) := by
  obtain ⟨b0, ra0, h0⟩ := h 0 (by decide)
  obtain ⟨b1, ra1, h1⟩ := h 1 (by decide)
  obtain ⟨b2, ra2, h2⟩ := h 2 (by decide)
  obtain ⟨b3, ra3, h3⟩ := h 3 (by decide)
  have hs' : s = 500 ∨ s = 502 ∨ s = 503 ∨ s = 504 := by simpa using hs
  rcases hs' with rfl | rfl | rfl | rfl <;>
    refine ⟨?_, b3, ?_⟩ <;>
    simp [request, requestFuel, requestStep, h0, h1, h2, h3,
      MAX_RETRIES, RETRYABLE_STATUS_CODES]

/-- Witness for C5 at a concrete attempt sequence that always answers 503. -/
theorem request_retryable_5xx_exhausts_witness :
    (request (fun _ => .response ⟨503, "unavailable", none⟩)).2 = 4 ∧
      ∃ b, (request (fun _ => .response ⟨503, "unavailable", none⟩)).1 =
        .error (.cacheUnavailableError b 503) :=
  request_retryable_5xx_exhausts (fun _ => .response ⟨503, "unavailable", none⟩)
    503 (by decide) (fun _ _ => ⟨"unavailable", none, rfl⟩)

/-- C6: if the first attempt receives HTTP 401, exactly one attempt occurs
and the surfaced error is AuthenticationError; the 401 is never retried. -/
theorem request_401_single_attempt
    (attempts : Nat → AttemptOutcome) (b : String) (ra : Option Nat)
    (h : attempts 0 = .response ⟨401, b, ra⟩) :
    request attempts = (.error .authenticationError, 1) := by
  simp [request, requestFuel, requestStep, h, MAX_RETRIES, RETRYABLE_STATUS_CODES]

/-- Witness for C6 at a concrete attempt sequence answering 401 first. -/
theorem request_401_single_attempt_witness :
    request (fun _ => .response ⟨401, "unauthorized", none⟩) =
      (.error .authenticationError, 1) :=
  request_401_single_attempt (fun _ => .response ⟨401, "unauthorized", none⟩)
    "unauthorized" none rfl

/-! ## Change-set detector (ProgrammaticToolCallingSession helpers) -/

/-- A file found under the scanned temp directory, as produced by the
deterministic lexicographic walk of listFilesRecursive followed by
relative-path normalization: the normalized relative path and the raw
content, where a NUL character in the content marks the binary case. -/
structure FileEntry where
  path : String
  content : String
  deriving DecidableEq

/-- The raw.includes(0) binary heuristic applied by readUtf8Text: for UTF-8
encoded data the byte 0 occurs in the buffer exactly when the code point 0
occurs in the decoded text. -/
def containsNullByte (content : String) : Bool :=
  content.data.any (fun ch => ch.toNat == 0)

/-- readUtf8Text: none for binary content (a NUL byte was found), otherwise
the decoded text. -/
def readUtf8Text (content : String) : Option String :=
  if containsNullByte content then none else some content

/-- A (path, content) pair scheduled for upload (the FileWritten record of
src/types). -/
structure FileWritten where
  path : String
  content : String
  deriving DecidableEq

/-- snapshotHashes: the content-hash snapshot of a directory listing, an
insertion-ordered map from normalized relative path to digest. The sha256
hex digest of hashContent is modelled by the abstract parameter hash; every
property proved below holds for an arbitrary hash function. -/
def snapshotHashes (hash : String → String) : List FileEntry → List (String × String)
  | [] => []
  | f :: rest =>
      match readUtf8Text f.content with
      | none => snapshotHashes hash rest
      | some c => (f.path, hash c) :: snapshotHashes hash rest

/-- collectChangedFiles: walk the directory listing, skip binary files,
record every readable file in the fresh snapshot, and report a file as
changed when the baseline holds no hash for its path or a different one. -/
def collectChangedFiles (hash : String → String)
    (baselineHashes : List (String × String)) :
    List FileEntry → List FileWritten × List (String × String)
  | [] => ([], [])
  | f :: rest =>
      let acc := collectChangedFiles hash baselineHashes rest
      match readUtf8Text f.content with
      | none => acc
      | some content =>
          let contentHash := hash content
          (if baselineHashes.lookup f.path = some contentHash then acc.1
           else ⟨f.path, content⟩ :: acc.1,
           (f.path, contentHash) :: acc.2)


lemma lookup_cons_ne (k a v : String) (tl : List (String × String)) (h : a ≠ k) :
    ((k, v) :: tl).lookup a = tl.lookup a := by
  rw [List.lookup, show (a == k) = false from beq_eq_false_iff_ne.mpr h]

lemma lookup_cons_self (k v : String) (tl : List (String × String)) :
    ((k, v) :: tl).lookup k = some v := by
  rw [List.lookup, beq_self_eq_true]

lemma readUtf8Text_eq_some {raw c : String} :
    readUtf8Text raw = some c ↔ containsNullByte raw = false ∧ raw = c := by
  unfold readUtf8Text
  by_cases h : containsNullByte raw = true
  · simp [h]
  · simp only [Bool.not_eq_true] at h
    simp [h]

lemma snapshotHashes_nil (hash : String → String) :
    snapshotHashes hash [] = [] := rfl

lemma snapshotHashes_cons_binary (hash : String → String) (f : FileEntry)
    (rest : List FileEntry) (h : readUtf8Text f.content = none) :
    snapshotHashes hash (f :: rest) = snapshotHashes hash rest := by
  conv_lhs => unfold snapshotHashes
  rw [h]

lemma snapshotHashes_cons_readable (hash : String → String) (f : FileEntry)
    (rest : List FileEntry) (c : String) (h : readUtf8Text f.content = some c) :
    snapshotHashes hash (f :: rest) =
      (f.path, hash c) :: snapshotHashes hash rest := by
  conv_lhs => unfold snapshotHashes
  rw [h]

lemma collectChangedFiles_cons_binary (hash : String → String)
    (b : List (String × String)) (f : FileEntry) (rest : List FileEntry)
    (h : readUtf8Text f.content = none) :
    collectChangedFiles hash b (f :: rest) = collectChangedFiles hash b rest := by
  conv_lhs => unfold collectChangedFiles
  rw [h]

lemma collectChangedFiles_cons_readable (hash : String → String)
    (b : List (String × String)) (f : FileEntry) (rest : List FileEntry)
    (c : String) (h : readUtf8Text f.content = some c) :
    collectChangedFiles hash b (f :: rest) =
      (if b.lookup f.path = some (hash c) then (collectChangedFiles hash b rest).1
       else ⟨f.path, c⟩ :: (collectChangedFiles hash b rest).1,
       (f.path, hash c) :: (collectChangedFiles hash b rest).2) := by
  conv_lhs => unfold collectChangedFiles
  rw [h]

lemma collectChangedFiles_snd_eq (hash : String → String)
    (b : List (String × String)) (dir : List FileEntry) :
    (collectChangedFiles hash b dir).2 = snapshotHashes hash dir := by
  induction dir with
  | nil => rfl
  | cons f rest ih =>
      cases h : readUtf8Text f.content with
      | none =>
          rw [collectChangedFiles_cons_binary hash b f rest h,
            snapshotHashes_cons_binary hash f rest h, ih]
      | some c =>
          rw [collectChangedFiles_cons_readable hash b f rest c h,
            snapshotHashes_cons_readable hash f rest c h]
          simpa using ih

lemma mem_collectChangedFiles_fst (hash : String → String)
    (b : List (String × String)) (dir : List FileEntry) (p c : String) :
    (⟨p, c⟩ : FileWritten) ∈ (collectChangedFiles hash b dir).1 ↔
      ∃ f ∈ dir, f.path = p ∧ readUtf8Text f.content = some c ∧
        b.lookup p ≠ some (hash c) := by
  induction dir with
  | nil => simp [collectChangedFiles]
  | cons f rest ih =>
      cases h : readUtf8Text f.content with
      | none =>
          rw [collectChangedFiles_cons_binary hash b f rest h, ih]
          constructor
          · rintro ⟨g, hg, h1, h2, h3⟩
            exact ⟨g, List.mem_cons_of_mem f hg, h1, h2, h3⟩
          · rintro ⟨g, hg, h1, h2, h3⟩
            rcases List.mem_cons.mp hg with rfl | hg'
            · rw [h] at h2; cases h2
            · exact ⟨g, hg', h1, h2, h3⟩
      | some content =>
          rw [collectChangedFiles_cons_readable hash b f rest content h]
          by_cases hb : b.lookup f.path = some (hash content)
          · simp only [if_pos hb]
            rw [ih]
            constructor
            · rintro ⟨g, hg, h1, h2, h3⟩
              exact ⟨g, List.mem_cons_of_mem f hg, h1, h2, h3⟩
            · rintro ⟨g, hg, h1, h2, h3⟩
              rcases List.mem_cons.mp hg with rfl | hg'
              · rw [h] at h2
                injection h2 with h2e
                subst h2e
                rw [h1] at hb
                exact absurd hb h3
              · exact ⟨g, hg', h1, h2, h3⟩
          · simp only [if_neg hb]
            rw [List.mem_cons, ih]
            constructor
            · rintro (heq | ⟨g, hg, h1, h2, h3⟩)
              · injection heq with hp hc
                subst hp; subst hc
                exact ⟨f, List.mem_cons_self f rest, rfl, h, hb⟩
              · exact ⟨g, List.mem_cons_of_mem f hg, h1, h2, h3⟩
            · rintro ⟨g, hg, h1, h2, h3⟩
              rcases List.mem_cons.mp hg with rfl | hg'
              · rw [h] at h2
                injection h2 with h2e
                subst h2e
                left
                rw [h1]
              · right; exact ⟨g, hg', h1, h2, h3⟩

lemma nodup_cons_paths {f : FileEntry} {rest : List FileEntry}
    (hnd : ((f :: rest).map FileEntry.path).Nodup) :
    f.path ∉ rest.map FileEntry.path ∧ (rest.map FileEntry.path).Nodup := by
  rw [List.map_cons, List.nodup_cons] at hnd
  exact hnd

lemma snapshotHashes_lookup_of_mem (hash : String → String)
    (dir : List FileEntry) (f : FileEntry) (c : String)
    (hnd : (dir.map FileEntry.path).Nodup) (hm : f ∈ dir)
    (hr : readUtf8Text f.content = some c) :
    (snapshotHashes hash dir).lookup f.path = some (hash c) := by
  induction dir with
  | nil => cases hm
  | cons g rest ih =>
      rcases List.mem_cons.mp hm with rfl | hm'
      · rw [snapshotHashes_cons_readable hash f rest c hr, lookup_cons_self]
      · have hne : f.path ≠ g.path := by
          intro hEq
          exact (nodup_cons_paths hnd).1 (hEq ▸ List.mem_map_of_mem FileEntry.path hm')
        cases h : readUtf8Text g.content with
        | none =>
            rw [snapshotHashes_cons_binary hash g rest h]
            exact ih (nodup_cons_paths hnd).2 hm'
        | some cg =>
            rw [snapshotHashes_cons_readable hash g rest cg h,
              lookup_cons_ne g.path f.path (hash cg) _ hne]
            exact ih (nodup_cons_paths hnd).2 hm'

lemma snapshotHashes_lookup_not_in_dir (hash : String → String)
    (dir : List FileEntry) (p : String)
    (hp : ∀ g ∈ dir, g.path ≠ p) :
    (snapshotHashes hash dir).lookup p = none := by
  induction dir with
  | nil => rfl
  | cons g rest ih =>
      cases h : readUtf8Text g.content with
      | none =>
          rw [snapshotHashes_cons_binary hash g rest h]
          exact ih (fun x hx => hp x (List.mem_cons_of_mem g hx))
      | some cg =>
          rw [snapshotHashes_cons_readable hash g rest cg h,
            lookup_cons_ne g.path p (hash cg) _
              (Ne.symm (hp g (List.mem_cons_self g rest)))]
          exact ih (fun x hx => hp x (List.mem_cons_of_mem g hx))

lemma snapshotHashes_lookup_of_binary (hash : String → String)
    (dir : List FileEntry) (f : FileEntry)
    (hnd : (dir.map FileEntry.path).Nodup) (hm : f ∈ dir)
    (hbin : containsNullByte f.content = true) :
    (snapshotHashes hash dir).lookup f.path = none := by
  induction dir with
  | nil => cases hm
  | cons g rest ih =>
      rcases List.mem_cons.mp hm with rfl | hm'
      · rw [snapshotHashes_cons_binary hash f rest (by simp [readUtf8Text, hbin])]
        refine snapshotHashes_lookup_not_in_dir hash rest f.path ?_
        intro g hg hEq
        exact (nodup_cons_paths hnd).1 (hEq ▸ List.mem_map_of_mem FileEntry.path hg)
      · have hne : f.path ≠ g.path := by
          intro hEq
          exact (nodup_cons_paths hnd).1 (hEq ▸ List.mem_map_of_mem FileEntry.path hm')
        cases h : readUtf8Text g.content with
        | none =>
            rw [snapshotHashes_cons_binary hash g rest h]
            exact ih (nodup_cons_paths hnd).2 hm'
        | some cg =>
            rw [snapshotHashes_cons_readable hash g rest cg h,
              lookup_cons_ne g.path f.path (hash cg) _ hne]
            exact ih (nodup_cons_paths hnd).2 hm'

/-- C3: collectChangedFiles reports a file as changed exactly when its path
is absent from the baseline or its content hash differs from the hash the
baseline stores for that path; a path carrying an identical hash in the
baseline and in the fresh snapshot is never part of the diff; and a path
present only in the baseline (a disappearance) is never reported. -/
theorem collectChangedFiles_change_iff (hash : String → String)
    (baselineHashes : List (String × String)) (dir : List FileEntry) :
    (∀ p c, (⟨p, c⟩ : FileWritten) ∈ (collectChangedFiles hash baselineHashes dir).1 ↔
        ∃ f ∈ dir, f.path = p ∧ readUtf8Text f.content = some c ∧
          baselineHashes.lookup p ≠ some (hash c)) ∧
    (∀ p h0, (dir.map FileEntry.path).Nodup →
        baselineHashes.lookup p = some h0 →
        (collectChangedFiles hash baselineHashes dir).2.lookup p = some h0 →
        p ∉ (collectChangedFiles hash baselineHashes dir).1.map FileWritten.path) ∧
    (∀ p, p ∈ (collectChangedFiles hash baselineHashes dir).1.map FileWritten.path →
        p ∈ dir.map FileEntry.path) := by
  refine ⟨mem_collectChangedFiles_fst hash baselineHashes dir, ?_, ?_⟩
  · intro p h0 hnd hb hc hmem
    rw [List.mem_map] at hmem
    obtain ⟨⟨p', c⟩, hmc, hpc⟩ := hmem
    obtain ⟨g, hg, hgp, hgr, hgl⟩ :=
      (mem_collectChangedFiles_fst hash baselineHashes dir p' c).mp hmc
    have hgpath : g.path = p := hgp.trans hpc
    have hsnap : (snapshotHashes hash dir).lookup g.path = some (hash c) :=
      snapshotHashes_lookup_of_mem hash dir g c hnd hg hgr
    rw [collectChangedFiles_snd_eq] at hc
    rw [hgpath, hc] at hsnap
    injection hsnap with hsnap
    have hp'p : p' = p := hgp.symm.trans hgpath
    rw [hp'p] at hgl
    rw [hb, hsnap] at hgl
    exact hgl rfl
  · intro p hmem
    rw [List.mem_map] at hmem
    obtain ⟨⟨p', c⟩, hmc, hpc⟩ := hmem
    obtain ⟨g, hg, hgp, _, _⟩ :=
      (mem_collectChangedFiles_fst hash baselineHashes dir p' c).mp hmc
    rw [List.mem_map]
    exact ⟨g, hg, hgp.trans hpc⟩

/-- Witness for C3 on a concrete directory: a fresh file is reported, an
unchanged one is not. -/
theorem collectChangedFiles_change_iff_witness :
    (⟨"b.ts", "y"⟩ : FileWritten) ∈
        (collectChangedFiles (fun c => c) [("a.ts", "x")]
          [⟨"a.ts", "x"⟩, ⟨"b.ts", "y"⟩]).1 ∧
      "a.ts" ∉
        (collectChangedFiles (fun c => c) [("a.ts", "x")]
          [⟨"a.ts", "x"⟩, ⟨"b.ts", "y"⟩]).1.map FileWritten.path := by
  have h := collectChangedFiles_change_iff (fun c => c) [("a.ts", "x")]
    [⟨"a.ts", "x"⟩, ⟨"b.ts", "y"⟩]
  exact ⟨(h.1 "b.ts" "y").mpr (by decide),
    h.2.1 "a.ts" "x" (by decide) (by decide) (by decide)⟩

/-- C4: a file whose raw content contains a NUL byte is skipped by the
binary heuristic of readUtf8Text: its path never appears in the change-set
and never appears in either snapshot the detector computes. -/
theorem nullByte_file_never_reported (hash : String → String)
    (baselineHashes : List (String × String)) (dir : List FileEntry)
    (f : FileEntry) (hm : f ∈ dir)
    (hnd : (dir.map FileEntry.path).Nodup)
    (hbin : containsNullByte f.content = true) :
    f.path ∉ (collectChangedFiles hash baselineHashes dir).1.map FileWritten.path ∧
    (snapshotHashes hash dir).lookup f.path = none ∧
    (collectChangedFiles hash baselineHashes dir).2.lookup f.path = none := by
  have hsnap := snapshotHashes_lookup_of_binary hash dir f hnd hm hbin
  refine ⟨?_, hsnap, by rw [collectChangedFiles_snd_eq]; exact hsnap⟩
  intro hmem
  rw [List.mem_map] at hmem
  obtain ⟨⟨p', c⟩, hmc, hpc⟩ := hmem
  obtain ⟨g, hg, hgp, hgr, _⟩ :=
    (mem_collectChangedFiles_fst hash baselineHashes dir p' c).mp hmc
  have hgf : g = f := List.inj_on_of_nodup_map hnd hg hm (hgp.trans hpc)
  subst hgf
  rw [readUtf8Text_eq_some] at hgr
  rw [hgr.1] at hbin
  cases hbin

/-- Witness for C4 on a concrete directory holding one binary file. -/
theorem nullByte_file_never_reported_witness :
    ("bin.dat" : String) ∉
        (collectChangedFiles (fun c => c) []
          [⟨"bin.dat", "a\x00b"⟩, ⟨"t.ts", "x"⟩]).1.map FileWritten.path ∧
      (snapshotHashes (fun c => c)
        [⟨"bin.dat", "a\x00b"⟩, ⟨"t.ts", "x"⟩]).lookup "bin.dat" = none := by
  have h := nullByte_file_never_reported (fun c => c) []
    [⟨"bin.dat", "a\x00b"⟩, ⟨"t.ts", "x"⟩] ⟨"bin.dat", "a\x00b"⟩
    (by decide) (by decide) (by decide)
  exact ⟨h.1, h.2.1⟩

/-! ## Materialization session: uploadChangedCode -/

lemma collectChangedFiles_fst_eq_nil (hash : String → String)
    (b : List (String × String)) (dir : List FileEntry) :
    (collectChangedFiles hash b dir).1 = [] ↔
      ∀ f ∈ dir, containsNullByte f.content = false →
        b.lookup f.path = some (hash f.content) := by
  induction dir with
  | nil => simp [collectChangedFiles]
  | cons f rest ih =>
      cases h : readUtf8Text f.content with
      | none =>
          have hb : containsNullByte f.content = true := by
            by_contra hb'
            simp only [Bool.not_eq_true] at hb'
            rw [readUtf8Text, hb'] at h
            simp at h
          rw [collectChangedFiles_cons_binary hash b f rest h, ih]
          constructor
          · intro H g hg hgb
            rcases List.mem_cons.mp hg with rfl | hg'
            · rw [hb] at hgb; cases hgb
            · exact H g hg' hgb
          · intro H g hg hgb
            exact H g (List.mem_cons_of_mem f hg) hgb
      | some c =>
          obtain ⟨hcb, hcc⟩ := readUtf8Text_eq_some.mp h
          rw [collectChangedFiles_cons_readable hash b f rest c h]
          by_cases hl : b.lookup f.path = some (hash c)
          · rw [if_pos hl]
            dsimp only
            rw [ih]
            constructor
            · intro H g hg hgb
              rcases List.mem_cons.mp hg with rfl | hg'
              · rw [hcc]; exact hl
              · exact H g hg' hgb
            · intro H g hg hgb
              exact H g (List.mem_cons_of_mem f hg) hgb
          · rw [if_neg hl]
            dsimp only
            constructor
            · intro H; cases H
            · intro H
              exfalso
              apply hl
              have := H f (List.mem_cons_self f rest) hcb
              rw [hcc] at this
              exact this

lemma collectChangedFiles_rediff_empty (hash : String → String)
    (dir : List FileEntry) (hnd : (dir.map FileEntry.path).Nodup) :
    (collectChangedFiles hash (snapshotHashes hash dir) dir).1 = [] := by
  rw [collectChangedFiles_fst_eq_nil]
  intro f hf hfb
  exact snapshotHashes_lookup_of_mem hash dir f f.content hnd hf
    (readUtf8Text_eq_some.mpr ⟨hfb, rfl⟩)

/-- Per-session state of a ProgrammaticToolCallingSession as far as
uploadChangedCode is concerned: the stored baseline snapshot and the
accumulated execution logs. -/
structure PTCState where
  baselineHashes : List (String × String)
  executionLogs : List String
  deriving DecidableEq

/-- The single network request uploadChangedCode issues via client.upload. -/
structure UploadPayload where
  task : String
  filesWritten : List FileWritten
  succeeded : Bool
  executionLogs : Option String
  deriving DecidableEq

/-- uploadChangedCode, with the filesystem reads represented by the
directory listing dir: returns the caller-visible result (none when the
diff is empty), the successor session state, and the number of network
calls issued. -/
def uploadChangedCode (hash : String → String) (dir : List FileEntry)
    (task : String) (succeededOpt : Option Bool) (logsOpt : Option String)
    (s : PTCState) : Option UploadPayload × PTCState × Nat :=
  let diff := collectChangedFiles hash s.baselineHashes dir
  if diff.1 = [] then
    (none, { s with baselineHashes := diff.2 }, 0)
  else
    (some { task := task,
            filesWritten := diff.1,
            succeeded := succeededOpt.getD true,
            executionLogs :=
              match logsOpt with
              | some l => some l
              | none =>
                  if s.executionLogs.length > 0 then
                    some (String.intercalate "\n---\n" s.executionLogs)
                  else none },
     { baselineHashes := diff.2, executionLogs := [] }, 1)

lemma uploadChangedCode_of_empty (hash : String → String) (dir : List FileEntry)
    (task : String) (so : Option Bool) (lo : Option String) (s : PTCState)
    (h : (collectChangedFiles hash s.baselineHashes dir).1 = []) :
    uploadChangedCode hash dir task so lo s =
      (none, { s with
        baselineHashes := (collectChangedFiles hash s.baselineHashes dir).2 }, 0) := by
  simp only [uploadChangedCode]
  rw [if_pos h]

lemma uploadChangedCode_of_nonempty (hash : String → String) (dir : List FileEntry)
    (task : String) (so : Option Bool) (lo : Option String) (s : PTCState)
    (h : (collectChangedFiles hash s.baselineHashes dir).1 ≠ []) :
    uploadChangedCode hash dir task so lo s =
      (some { task := task,
              filesWritten := (collectChangedFiles hash s.baselineHashes dir).1,
              succeeded := so.getD true,
              executionLogs :=
                match lo with
                | some l => some l
                | none =>
                    if s.executionLogs.length > 0 then
                      some (String.intercalate "\n---\n" s.executionLogs)
                    else none },
       { baselineHashes := (collectChangedFiles hash s.baselineHashes dir).2,
         executionLogs := [] }, 1) := by
  simp only [uploadChangedCode]
  rw [if_neg h]

/-- C7: when the directory contents hash-equal the stored baseline,
uploadChangedCode returns null with zero network calls; calling it twice
with no writes in between returns null both times with zero network calls;
and on a non-empty diff it uploads exactly the changed files, issues one
network call, and replaces the baseline with the fresh snapshot. -/
theorem uploadChangedCode_empty_and_rebaseline (hash : String → String)
    (dir : List FileEntry) (task : String) (succeededOpt : Option Bool)
    (logsOpt : Option String) (s : PTCState)
    (hnd : (dir.map FileEntry.path).Nodup)
    (hempty : ∀ f ∈ dir, containsNullByte f.content = false →
        s.baselineHashes.lookup f.path = some (hash f.content)) :
    (uploadChangedCode hash dir task succeededOpt logsOpt s).1 = none ∧
    (uploadChangedCode hash dir task succeededOpt logsOpt s).2.2 = 0 ∧
    (uploadChangedCode hash dir task succeededOpt logsOpt
        (uploadChangedCode hash dir task succeededOpt logsOpt s).2.1).1 = none ∧
    (uploadChangedCode hash dir task succeededOpt logsOpt
        (uploadChangedCode hash dir task succeededOpt logsOpt s).2.1).2.2 = 0 ∧
    (∀ s' : PTCState, (collectChangedFiles hash s'.baselineHashes dir).1 ≠ [] →
        ((uploadChangedCode hash dir task succeededOpt logsOpt s').1.map
            UploadPayload.filesWritten) =
          some (collectChangedFiles hash s'.baselineHashes dir).1 ∧
        (uploadChangedCode hash dir task succeededOpt logsOpt s').2.1.baselineHashes =
          snapshotHashes hash dir ∧
        (uploadChangedCode hash dir task succeededOpt logsOpt s').2.2 = 1) := by
  have h1 : (collectChangedFiles hash s.baselineHashes dir).1 = [] :=
    (collectChangedFiles_fst_eq_nil hash s.baselineHashes dir).mpr hempty
  have hfirst := uploadChangedCode_of_empty hash dir task succeededOpt logsOpt s h1
  have hsnd : (uploadChangedCode hash dir task succeededOpt logsOpt s).2.1.baselineHashes =
      snapshotHashes hash dir := by
    rw [hfirst]
    exact collectChangedFiles_snd_eq hash s.baselineHashes dir
  have h2 : (collectChangedFiles hash
      ((uploadChangedCode hash dir task succeededOpt logsOpt s).2.1).baselineHashes dir).1 = [] := by
    rw [hsnd]
    exact collectChangedFiles_rediff_empty hash dir hnd
  have hsecond := uploadChangedCode_of_empty hash dir task succeededOpt logsOpt
    ((uploadChangedCode hash dir task succeededOpt logsOpt s).2.1) h2
  refine ⟨by rw [hfirst], by rw [hfirst], by rw [hsecond], by rw [hsecond], ?_⟩
  intro s' hne
  rw [uploadChangedCode_of_nonempty hash dir task succeededOpt logsOpt s' hne]
  exact ⟨rfl, collectChangedFiles_snd_eq hash s'.baselineHashes dir, rfl⟩

/-- Witness for C7 on a concrete session whose directory matches the
baseline, plus a dirty session that uploads once. -/
theorem uploadChangedCode_empty_and_rebaseline_witness :
    (uploadChangedCode (fun c => c) [⟨"a.ts", "x"⟩] "t" none none
        ⟨[("a.ts", "x")], []⟩).1 = none ∧
    (uploadChangedCode (fun c => c) [⟨"a.ts", "x"⟩] "t" none none
        ⟨[("a.ts", "x")], []⟩).2.2 = 0 ∧
    (uploadChangedCode (fun c => c) [⟨"a.ts", "x"⟩] "t" none none
        (uploadChangedCode (fun c => c) [⟨"a.ts", "x"⟩] "t" none none
          ⟨[("a.ts", "x")], []⟩).2.1).1 = none ∧
    (uploadChangedCode (fun c => c) [⟨"a.ts", "x"⟩] "t" none none
        ⟨[], []⟩).2.2 = 1 := by
  have h := uploadChangedCode_empty_and_rebaseline (fun c => c) [⟨"a.ts", "x"⟩]
    "t" none none ⟨[("a.ts", "x")], []⟩ (by decide) (by decide)
  exact ⟨h.1, h.2.1, h.2.2.1, (h.2.2.2.2 ⟨[], []⟩ (by decide)).2.2⟩

/-! ## Materialization session: path safety of prepareTurn -/

/-- A snippet filename before resolution, as node path.resolve sees it: an
absolute flag plus the separator-split components. -/
structure RawPath where
  absolute : Bool
  components : List String
  deriving DecidableEq

/-- One step of node path.resolve normalization over an absolute component
stack: empty and dot components vanish, dot-dot pops, anything else is
pushed. -/
def applyComponent (acc : List String) (c : String) : List String :=
  if c = "" ∨ c = "." then acc
  else if c = ".." then acc.dropLast
  else acc ++ [c]

/-- node path.resolve(base, p) over a resolved absolute base: an absolute p
restarts from the root, otherwise the components are applied on top of the
base. -/
def resolvePath (base : List String) (p : RawPath) : List String :=
  p.components.foldl applyComponent (if p.absolute then [] else base)

/-- The containment test of resolveSafeTarget: the string test
target === resolvedBase or target.startsWith(resolvedBase + sep), at
component level: the base is a prefix of the target. -/
def insideBase (base target : List String) : Bool :=
  base.isPrefixOf target

/-- resolveSafeTarget: resolve the snippet filename against the temp
directory and reject it when the result escapes that directory. -/
def resolveSafeTarget (baseDir : List String) (p : RawPath) :
    Except String (List String) :=
  let target := resolvePath baseDir p
  if insideBase baseDir target then .ok target
  else .error "Invalid snippet filename"

/-- The write loop of prepareTurn over the retrieved files, each a
(filename, source) pair: returns the writes performed, in order, and the
error that interrupted the loop, if any. A file is written only after its
resolveSafeTarget check passed; the loop stops at the first rejection. -/
def materializeFiles (tempdir : List String) :
    List (RawPath × String) → List (List String × String) × Option String
  | [] => ([], none)
  | (fn, src) :: rest =>
      match resolveSafeTarget tempdir fn with
      | .error e => ([], some e)
      | .ok target =>
          let acc := materializeFiles tempdir rest
          ((target, src) :: acc.1, acc.2)

/-- C8: every write prepareTurn performs lands inside the scratch
directory, and a snippet filename that resolves outside the scratch
directory makes the loop fail with the validation error before that file
is ever written. -/
theorem prepareTurn_path_safety (tempdir : List String)
    (files : List (RawPath × String)) :
    (∀ t c, (t, c) ∈ (materializeFiles tempdir files).1 →
        insideBase tempdir t = true) ∧
    ((∃ f ∈ files, insideBase tempdir (resolvePath tempdir f.1) = false) →
        (materializeFiles tempdir files).2 = some "Invalid snippet filename") := by
  induction files with
  | nil =>
      refine ⟨(by intro t c h; cases h), ?_⟩
      rintro ⟨f, hf, _⟩
      cases hf
  | cons fs rest ih =>
      obtain ⟨fn, src⟩ := fs
      by_cases hin : insideBase tempdir (resolvePath tempdir fn) = true
      · have hstep : resolveSafeTarget tempdir fn = .ok (resolvePath tempdir fn) := by
          unfold resolveSafeTarget
          rw [if_pos hin]
        constructor
        · intro t c hmem
          unfold materializeFiles at hmem
          rw [hstep] at hmem
          rcases List.mem_cons.mp hmem with heq | hmem'
          · injection heq with h1 h2
            rw [← h1] at hin
            exact hin
          · exact ih.1 t c hmem'
        · rintro ⟨f, hf, hout⟩
          unfold materializeFiles
          rw [hstep]
          rcases List.mem_cons.mp hf with rfl | hf'
          · rw [hin] at hout; cases hout
          · exact ih.2 ⟨f, hf', hout⟩
      · have hout : insideBase tempdir (resolvePath tempdir fn) = false :=
          Bool.not_eq_true _ ▸ (by simpa using hin)
        have hstep : resolveSafeTarget tempdir fn = .error "Invalid snippet filename" := by
          unfold resolveSafeTarget
          rw [if_neg (by simp [hout])]
        constructor
        · intro t c hmem
          unfold materializeFiles at hmem
          rw [hstep] at hmem
          cases hmem
        · intro _
          unfold materializeFiles
          rw [hstep]

/-- Witness for C8: a traversal filename is rejected, a plain one is
written inside the scratch directory. -/
theorem prepareTurn_path_safety_witness :
    (∀ t c, (t, c) ∈ (materializeFiles ["tmp", "rs"]
        [(⟨false, ["a.ts"]⟩, "x"), (⟨false, ["..", "..", "etc", "pw"]⟩, "y")]).1 →
        insideBase ["tmp", "rs"] t = true) ∧
    (materializeFiles ["tmp", "rs"]
        [(⟨false, ["a.ts"]⟩, "x"), (⟨false, ["..", "..", "etc", "pw"]⟩, "y")]).2 =
      some "Invalid snippet filename" := by
  have h := prepareTurn_path_safety ["tmp", "rs"]
    [(⟨false, ["a.ts"]⟩, "x"), (⟨false, ["..", "..", "etc", "pw"]⟩, "y")]
  exact ⟨h.1, h.2 ⟨(⟨false, ["..", "..", "etc", "pw"]⟩, "y"), by decide, by decide⟩⟩

/-! ## Materialization session: cleanup and tempdir ownership -/

/-- The tempdir-relevant part of the ProgrammaticToolCallingSession
constructor: ownsTempdir records whether the caller omitted the tempdir
option, in which case the session generates its own directory name. -/
structure PTCSessionDir where
  tempdir : String
  ownsTempdir : Bool
  deriving DecidableEq

/-- The constructor: options.tempdir === undefined makes the session own a
generated directory, otherwise it adopts the caller-supplied one. -/
def mkSessionDir (optTempdir : Option String) (generated : String) : PTCSessionDir :=
  { ownsTempdir := optTempdir.isNone,
    tempdir := optTempdir.getD generated }

/-- cleanup: rm -rf of the temp directory happens exactly when the caller
passes removeTempdir=true and the session owns the directory; the returned
Bool reports whether the deletion ran. -/
def cleanup (s : PTCSessionDir) (removeTempdir : Option Bool) : Bool :=
  (removeTempdir.getD false) && s.ownsTempdir

/-- C10: with a caller-supplied tempdir, cleanup removes nothing even with
removeTempdir=true; the directory is deleted exactly when the session
generated it and removeTempdir is true; with removeTempdir absent or
false, nothing is ever deleted. -/
theorem cleanup_tempdir_ownership :
    (∀ (d generated : String) (rm : Option Bool),
        cleanup (mkSessionDir (some d) generated) rm = false) ∧
    (∀ (optTempdir : Option String) (generated : String) (rm : Option Bool),
        cleanup (mkSessionDir optTempdir generated) rm = true ↔
          rm = some true ∧ optTempdir = none) ∧
    (∀ (optTempdir : Option String) (generated : String),
        cleanup (mkSessionDir optTempdir generated) none = false ∧
        cleanup (mkSessionDir optTempdir generated) (some false) = false) := by
  refine ⟨?_, ?_, ?_⟩
  · intro d generated rm
    simp [cleanup, mkSessionDir]
  · intro optTempdir generated rm
    cases rm with
    | none => cases optTempdir <;> simp [cleanup, mkSessionDir]
    | some b => cases b <;> cases optTempdir <;> simp [cleanup, mkSessionDir]
  · intro optTempdir generated
    cases optTempdir <;> simp [cleanup, mkSessionDir]

/-! ## Session orchestrator: RaysurferQuery -/

/-- Input fields of a content block that _trackMessage inspects. -/
structure BlockInput where
  filePath : Option String
  notebookPath : Option String
  command : Option String
  deriving DecidableEq

/-- One content block of an assistant message. -/
structure ContentBlock where
  type : String
  name : Option String
  text : Option String
  content : Option String
  input : Option BlockInput
  deriving DecidableEq

/-- An SDK message as _trackMessage sees it: the type and subtype
discriminators and the content blocks of msg.message, empty when absent. -/
structure SDKMessage where
  type : String
  subtype : Option String
  blocks : List ContentBlock
  deriving DecidableEq

/-- File modification tools to track (FILE_MODIFY_TOOLS). -/
def FILE_MODIFY_TOOLS : List String := ["Write", "Edit", "MultiEdit", "NotebookEdit"]

/-- The cache subdirectory name (CACHE_DIR). -/
def CACHE_DIR : String := ".raysurfer_code"

/-- JavaScript truthiness of an optional string: present and non-empty. -/
def truthy : Option String → Bool
  | some s => s != ""
  | none => false

/-- Whether pat occurs as a contiguous run inside l. -/
def containsSeq (pat : List Char) : List Char → Bool
  | [] => pat.isEmpty
  | c :: tl => pat.isPrefixOf (c :: tl) || containsSeq pat tl

/-- JS String.includes on decoded characters. -/
def strIncludes (s pat : String) : Bool := containsSeq pat.data s.data

/-- A retrieved cached code file: the CodeFile fields the wrapper uses. -/
structure CodeFile where
  codeBlockId : String
  filename : String
  description : String
  source : String
  deriving DecidableEq

/-- JS Set.add on an insertion-ordered deduplicated list. -/
def insertUnique (l : List String) (x : String) : List String :=
  if x ∈ l then l else l ++ [x]

/-- Per-session configuration and environment of a RaysurferQuery: the
constructor-derived flags, the retrieval response consumed during lazy
initialization, the contents of the wrapped SDK stream, the filesystem at
finalization time, and the two regular-expression scanners of
_trackMessage (the BASH_OUTPUT_PATTERNS scan with its extension filter,
and the fenced-code-block matcher with its length filter) modelled as
abstract functions: every claim proved below holds for arbitrary scanner
behaviour. -/
structure SessionConfig where
  cacheEnabled : Bool
  promptText : Option String
  parseRunForAiVoting : Bool
  workDir : String
  retrievedFiles : List CodeFile
  stream : List SDKMessage
  bashOutputFiles : String → List String
  codeBlocksOf : String → List String
  fs : String → Option String

/-- Mutable state of a RaysurferQuery. finalizeRuns and networkCalls are
instrumentation counters: finalizeRuns counts executions of the
finalization body behind the _cacheUploadDone guard, and networkCalls
counts uploadNewCodeSnip and voteCodeSnip requests issued. -/
structure SessionState where
  innerStarted : Bool
  innerClosed : Bool
  innerPending : List SDKMessage
  raysurfer : Bool
  cachedFiles : List CodeFile
  modifiedFilePaths : List String
  bashGeneratedFiles : List String
  executionLogs : List String
  taskSucceeded : Bool
  generatedCodeBlocks : List String
  cacheUploadDone : Bool
  messageCount : Nat
  finalizeRuns : Nat
  networkCalls : Nat

/-- The freshly constructed wrapper (RaysurferQuery constructor). -/
def initialState : SessionState :=
  { innerStarted := false, innerClosed := false, innerPending := [],
    raysurfer := false, cachedFiles := [], modifiedFilePaths := [],
    bashGeneratedFiles := [], executionLogs := [], taskSucceeded := false,
    generatedCodeBlocks := [], cacheUploadDone := false, messageCount := 0,
    finalizeRuns := 0, networkCalls := 0 }

/-- The lazy _initialize path: when caching is enabled and the prompt is a
string, the RaySurfer client is created, the retrieval response adopted,
and each retrieved file written under workDir/CACHE_DIR and tracked; the
wrapped SDK stream is then opened. Modelled on the success path of the
retrieval try block; a swallowed lookup failure merely leaves cachedFiles
empty, which none of the claims below distinguish. -/
def runInit (cfg : SessionConfig) (s : SessionState) : SessionState :=
  let s1 :=
    if cfg.cacheEnabled && truthy cfg.promptText then
      { s with raysurfer := true,
               cachedFiles := cfg.retrievedFiles,
               modifiedFilePaths := cfg.retrievedFiles.foldl
                 (fun acc f => insertUnique acc
                   (cfg.workDir ++ "/" ++ CACHE_DIR ++ "/" ++ f.filename))
                 s.modifiedFilePaths }
    else s
  { s1 with innerStarted := true, innerClosed := false, innerPending := cfg.stream }

/-- _ensureInit: initialization runs once, on the first trigger. -/
def ensureInit (cfg : SessionConfig) (s : SessionState) : SessionState :=
  if s.innerStarted then s else runInit cfg s

/-- block.input?.file_path ?? block.input?.notebook_path -/
def blockFilePath (b : ContentBlock) : Option String :=
  match b.input with
  | none => none
  | some inp =>
      match inp.filePath with
      | some p => some p
      | none => inp.notebookPath

/-- Tracking paragraph 1 of the block loop: file modification tools. -/
def trackFileTool (b : ContentBlock) (s : SessionState) : SessionState :=
  if b.type = "tool_use" ∧ b.name.getD "" ∈ FILE_MODIFY_TOOLS ∧
      truthy (blockFilePath b) then
    { s with modifiedFilePaths :=
        insertUnique s.modifiedFilePaths ((blockFilePath b).getD "") }
  else s

/-- Tracking paragraph 2: Bash command output files, via the abstracted
pattern scan. -/
def trackBashTool (cfg : SessionConfig) (b : ContentBlock) (s : SessionState) :
    SessionState :=
  if b.type = "tool_use" ∧ b.name = some "Bash" ∧
      truthy (b.input.bind BlockInput.command) then
    let found := cfg.bashOutputFiles ((b.input.bind BlockInput.command).getD "")
    { s with bashGeneratedFiles := found.foldl insertUnique s.bashGeneratedFiles }
  else s

/-- Tracking paragraph 3: tool_result content captured as execution logs
when this run is sampled for AI voting. -/
def trackToolResult (cfg : SessionConfig) (b : ContentBlock) (s : SessionState) :
    SessionState :=
  if b.type = "tool_result" ∧ truthy b.content ∧ cfg.parseRunForAiVoting then
    { s with executionLogs := s.executionLogs ++ [(b.content.getD "").take 5000] }
  else s

/-- Tracking paragraph 4: fenced code blocks of text segments, via the
abstracted matcher. -/
def trackTextBlocks (cfg : SessionConfig) (b : ContentBlock) (s : SessionState) :
    SessionState :=
  if b.type = "text" ∧ truthy b.text then
    { s with generatedCodeBlocks :=
        s.generatedCodeBlocks ++ cfg.codeBlocksOf (b.text.getD "") }
  else s

/-- One iteration of the content-block loop of _trackMessage. -/
def trackBlock (cfg : SessionConfig) (s : SessionState) (b : ContentBlock) :
    SessionState :=
  trackTextBlocks cfg b (trackToolResult cfg b (trackBashTool cfg b (trackFileTool b s)))

/-- _trackMessage: bump the counter, inspect assistant content blocks, and
flip the success flag on a result/success terminal message. -/
def trackMessage (cfg : SessionConfig) (s : SessionState) (msg : SDKMessage) :
    SessionState :=
  let s1 := { s with messageCount := s.messageCount + 1 }
  let s2 := if msg.type = "assistant" then msg.blocks.foldl (trackBlock cfg) s1 else s1
  if msg.type = "result" ∧ msg.subtype = some "success" then
    { s2 with taskSucceeded := true }
  else s2

/-- existsSync + readFileSync + binary check of the finalization loops. -/
def readCacheCandidate (fs : String → Option String) (p : String) : Option String :=
  match fs p with
  | none => none
  | some content => if containsNullByte content then none else some content

/-- The filesToCache accumulation of _uploadCache: tracked modified files
outside the cache directory, then Bash-generated files not already
tracked, then the largest extracted code block as a synthetic file. -/
def collectFilesToCache (cfg : SessionConfig) (s : SessionState) :
    List (String × String) :=
  let fromModified := s.modifiedFilePaths.foldl
    (fun acc p =>
      if strIncludes p CACHE_DIR then acc
      else
        match readCacheCandidate cfg.fs p with
        | some content => acc ++ [(p, content)]
        | none => acc) []
  let fromBash := s.bashGeneratedFiles.foldl
    (fun acc p =>
      if p ∈ s.modifiedFilePaths then acc
      else
        match readCacheCandidate cfg.fs p with
        | some content => acc ++ [(p, content)]
        | none => acc) fromModified
  match s.generatedCodeBlocks with
  | [] => fromBash
  | blk :: rest =>
      fromBash ++
        [("generated-code.ts",
          rest.foldl (fun a b => if a.length > b.length then a else b) blk)]

/-- _uploadCache: the finalization body runs at most once behind the
_cacheUploadDone guard; network requests (one upload per file, or one vote
per cached block when no file was produced) are issued only when caching
is enabled, the client exists, the task succeeded and the prompt was a
string. Upload failures are caught and swallowed, which the counters do
not distinguish. -/
def uploadCacheBody (cfg : SessionConfig) (s : SessionState) : SessionState :=
  let s1 := { s with cacheUploadDone := true, finalizeRuns := s.finalizeRuns + 1 }
  let filesToCache := collectFilesToCache cfg s1
  if cfg.cacheEnabled && s1.raysurfer && s1.taskSucceeded && truthy cfg.promptText then
    let cachedBlocksForVoting :=
      if cfg.parseRunForAiVoting then s1.cachedFiles else []
    if filesToCache.length > 0 || cachedBlocksForVoting.length > 0 then
      { s1 with networkCalls := s1.networkCalls + filesToCache.length +
          (if filesToCache.length = 0 then cachedBlocksForVoting.length else 0) }
    else s1
  else s1

/-- _uploadCache: the early-return guard on _cacheUploadDone in front of
the finalization body. -/
def uploadCache (cfg : SessionConfig) (s : SessionState) : SessionState :=
  if s.cacheUploadDone then s else uploadCacheBody cfg s

/-- The two generator-protocol calls a consumer can issue. -/
inductive QueryOp where
  | next
  | ret
  deriving DecidableEq

/-- What one generator-protocol call observed. doneFromNext (the wrapped
stream is exhausted or already closed) and returnedWithInner (early
return after initialization) are the two finalization triggers. -/
inductive QueryEvent where
  | yielded (m : SDKMessage)
  | doneFromNext
  | returnedWithInner
  | returnedNoInner
  deriving DecidableEq

def isFinalizeTrigger : QueryEvent → Bool
  | .doneFromNext => true
  | .returnedWithInner => true
  | _ => false

/-- One call of the AsyncGenerator protocol on the wrapper: next() ensures
initialization, pulls the wrapped stream, tracks a yielded message and
finalizes on done; return() finalizes and closes the wrapped stream when
it exists, and is a no-op before initialization. -/
def stepOp (cfg : SessionConfig) (s : SessionState) : QueryOp → SessionState × QueryEvent
  | .next =>
      let s1 := ensureInit cfg s
      if s1.innerClosed then (uploadCache cfg s1, .doneFromNext)
      else
        match s1.innerPending with
        | m :: rest =>
            (trackMessage cfg { s1 with innerPending := rest } m, .yielded m)
        | [] => (uploadCache cfg s1, .doneFromNext)
  | .ret =>
      if s.innerStarted then
        ({ uploadCache cfg s with innerClosed := true }, .returnedWithInner)
      else (s, .returnedNoInner)

/-- A whole consumer interaction: the final state and the event trace. -/
def runOps (cfg : SessionConfig) (s : SessionState) :
    List QueryOp → SessionState × List QueryEvent
  | [] => (s, [])
  | op :: rest =>
      let first := stepOp cfg s op
      let acc := runOps cfg first.1 rest
      (acc.1, first.2 :: acc.2)

/-- The session-state fields that message tracking never modifies. -/
structure GhostEq (a b : SessionState) : Prop where
  innerStarted : a.innerStarted = b.innerStarted
  innerClosed : a.innerClosed = b.innerClosed
  innerPending : a.innerPending = b.innerPending
  raysurfer : a.raysurfer = b.raysurfer
  cachedFiles : a.cachedFiles = b.cachedFiles
  taskSucceeded : a.taskSucceeded = b.taskSucceeded
  cacheUploadDone : a.cacheUploadDone = b.cacheUploadDone
  finalizeRuns : a.finalizeRuns = b.finalizeRuns
  networkCalls : a.networkCalls = b.networkCalls

lemma ghostEq_refl (s : SessionState) : GhostEq s s :=
  ⟨rfl, rfl, rfl, rfl, rfl, rfl, rfl, rfl, rfl⟩

lemma ghostEq_trans {a b c : SessionState} (h1 : GhostEq a b) (h2 : GhostEq b c) :
    GhostEq a c :=
  ⟨h1.innerStarted.trans h2.innerStarted, h1.innerClosed.trans h2.innerClosed,
   h1.innerPending.trans h2.innerPending, h1.raysurfer.trans h2.raysurfer,
   h1.cachedFiles.trans h2.cachedFiles, h1.taskSucceeded.trans h2.taskSucceeded,
   h1.cacheUploadDone.trans h2.cacheUploadDone, h1.finalizeRuns.trans h2.finalizeRuns,
   h1.networkCalls.trans h2.networkCalls⟩

lemma trackFileTool_ghost (b : ContentBlock) (s : SessionState) :
    GhostEq (trackFileTool b s) s := by
  unfold trackFileTool
  split <;> exact ⟨rfl, rfl, rfl, rfl, rfl, rfl, rfl, rfl, rfl⟩

lemma trackBashTool_ghost (cfg : SessionConfig) (b : ContentBlock) (s : SessionState) :
    GhostEq (trackBashTool cfg b s) s := by
  unfold trackBashTool
  split <;> exact ⟨rfl, rfl, rfl, rfl, rfl, rfl, rfl, rfl, rfl⟩

lemma trackToolResult_ghost (cfg : SessionConfig) (b : ContentBlock) (s : SessionState) :
    GhostEq (trackToolResult cfg b s) s := by
  unfold trackToolResult
  split <;> exact ⟨rfl, rfl, rfl, rfl, rfl, rfl, rfl, rfl, rfl⟩

lemma trackTextBlocks_ghost (cfg : SessionConfig) (b : ContentBlock) (s : SessionState) :
    GhostEq (trackTextBlocks cfg b s) s := by
  unfold trackTextBlocks
  split <;> exact ⟨rfl, rfl, rfl, rfl, rfl, rfl, rfl, rfl, rfl⟩

lemma trackBlock_ghost (cfg : SessionConfig) (s : SessionState) (b : ContentBlock) :
    GhostEq (trackBlock cfg s b) s := by
  unfold trackBlock
  exact ghostEq_trans (trackTextBlocks_ghost cfg b _)
    (ghostEq_trans (trackToolResult_ghost cfg b _)
      (ghostEq_trans (trackBashTool_ghost cfg b _) (trackFileTool_ghost b s)))

lemma trackBlocks_ghost (cfg : SessionConfig) (bs : List ContentBlock) (s : SessionState) :
    GhostEq (bs.foldl (trackBlock cfg) s) s := by
  induction bs generalizing s with
  | nil => exact ghostEq_refl s
  | cons b rest ih =>
      exact ghostEq_trans (ih (trackBlock cfg s b)) (trackBlock_ghost cfg s b)

/-- trackMessage never touches the stream bookkeeping fields or the
counters; the success flag changes only on a result/success message. -/
lemma trackMessage_core (cfg : SessionConfig) (s : SessionState) (m : SDKMessage) :
    GhostEq (trackMessage cfg s m)
      (if m.type = "result" ∧ m.subtype = some "success" then
        { s with taskSucceeded := true } else s) := by
  have hmid : GhostEq
      (if m.type = "assistant" then
        m.blocks.foldl (trackBlock cfg) { s with messageCount := s.messageCount + 1 }
       else { s with messageCount := s.messageCount + 1 }) s := by
    by_cases ha : m.type = "assistant"
    · rw [if_pos ha]
      exact ghostEq_trans (trackBlocks_ghost cfg m.blocks _)
        ⟨rfl, rfl, rfl, rfl, rfl, rfl, rfl, rfl, rfl⟩
    · rw [if_neg ha]
      exact ⟨rfl, rfl, rfl, rfl, rfl, rfl, rfl, rfl, rfl⟩
  by_cases hr : m.type = "result" ∧ m.subtype = some "success"
  · rw [if_pos hr]
    simp only [trackMessage]
    rw [if_pos hr]
    exact ⟨hmid.innerStarted, hmid.innerClosed, hmid.innerPending, hmid.raysurfer,
      hmid.cachedFiles, rfl, hmid.cacheUploadDone, hmid.finalizeRuns, hmid.networkCalls⟩
  · rw [if_neg hr]
    simp only [trackMessage]
    rw [if_neg hr]
    exact hmid

lemma runInit_fields (cfg : SessionConfig) (s : SessionState) :
    (runInit cfg s).innerStarted = true ∧
    (runInit cfg s).innerClosed = false ∧
    (runInit cfg s).innerPending = cfg.stream ∧
    (runInit cfg s).taskSucceeded = s.taskSucceeded ∧
    (runInit cfg s).cacheUploadDone = s.cacheUploadDone ∧
    (runInit cfg s).finalizeRuns = s.finalizeRuns ∧
    (runInit cfg s).networkCalls = s.networkCalls := by
  unfold runInit
  split <;> exact ⟨rfl, rfl, rfl, rfl, rfl, rfl, rfl⟩

lemma ensureInit_fields (cfg : SessionConfig) (s : SessionState) :
    (ensureInit cfg s).taskSucceeded = s.taskSucceeded ∧
    (ensureInit cfg s).cacheUploadDone = s.cacheUploadDone ∧
    (ensureInit cfg s).finalizeRuns = s.finalizeRuns ∧
    (ensureInit cfg s).networkCalls = s.networkCalls ∧
    ((ensureInit cfg s).innerPending = s.innerPending ∨
      (ensureInit cfg s).innerPending = cfg.stream) := by
  unfold ensureInit
  split
  · exact ⟨rfl, rfl, rfl, rfl, Or.inl rfl⟩
  · have h := runInit_fields cfg s
    exact ⟨h.2.2.2.1, h.2.2.2.2.1, h.2.2.2.2.2.1, h.2.2.2.2.2.2, Or.inr h.2.2.1⟩

lemma uploadCacheBody_fields (cfg : SessionConfig) (s : SessionState) :
    (uploadCacheBody cfg s).cacheUploadDone = true ∧
    (uploadCacheBody cfg s).finalizeRuns = s.finalizeRuns + 1 ∧
    (uploadCacheBody cfg s).taskSucceeded = s.taskSucceeded ∧
    (uploadCacheBody cfg s).innerStarted = s.innerStarted ∧
    (uploadCacheBody cfg s).innerClosed = s.innerClosed ∧
    (uploadCacheBody cfg s).innerPending = s.innerPending := by
  simp only [uploadCacheBody]
  repeat' split
  all_goals exact ⟨rfl, rfl, rfl, rfl, rfl, rfl⟩

lemma uploadCacheBody_networkCalls (cfg : SessionConfig) (s : SessionState)
    (h : s.taskSucceeded = false ∨ cfg.cacheEnabled = false) :
    (uploadCacheBody cfg s).networkCalls = s.networkCalls := by
  rcases h with h | h <;> simp [uploadCacheBody, h]

lemma uploadCache_done (cfg : SessionConfig) (s : SessionState)
    (h : s.cacheUploadDone = true) : uploadCache cfg s = s := by
  simp [uploadCache, h]

lemma uploadCache_notDone (cfg : SessionConfig) (s : SessionState)
    (h : s.cacheUploadDone = false) :
    uploadCache cfg s = uploadCacheBody cfg s := by
  simp [uploadCache, h]

/-- The guard-flag invariant: the finalization body has run exactly once
when the flag is set and never otherwise. -/
def FlagCount (s : SessionState) : Prop :=
  s.finalizeRuns = if s.cacheUploadDone then 1 else 0

lemma uploadCache_trace (cfg : SessionConfig) (t : SessionState) (h : FlagCount t) :
    FlagCount (uploadCache cfg t) ∧ (uploadCache cfg t).cacheUploadDone = true := by
  by_cases hd : t.cacheUploadDone = true
  · rw [uploadCache_done cfg t hd]
    exact ⟨h, hd⟩
  · have hd' : t.cacheUploadDone = false := by simpa using hd
    rw [uploadCache_notDone cfg t hd']
    have hb := uploadCacheBody_fields cfg t
    have hrun : t.finalizeRuns = 0 := by
      have := h
      unfold FlagCount at this
      rw [hd'] at this
      simpa using this
    refine ⟨?_, hb.1⟩
    unfold FlagCount
    rw [hb.1, hb.2.1, hrun]
    simp

lemma uploadCache_taskSucceeded (cfg : SessionConfig) (t : SessionState) :
    (uploadCache cfg t).taskSucceeded = t.taskSucceeded := by
  by_cases hd : t.cacheUploadDone = true
  · rw [uploadCache_done cfg t hd]
  · rw [uploadCache_notDone cfg t (by simpa using hd)]
    exact (uploadCacheBody_fields cfg t).2.2.1

lemma uploadCache_innerPending (cfg : SessionConfig) (t : SessionState) :
    (uploadCache cfg t).innerPending = t.innerPending := by
  by_cases hd : t.cacheUploadDone = true
  · rw [uploadCache_done cfg t hd]
  · rw [uploadCache_notDone cfg t (by simpa using hd)]
    exact (uploadCacheBody_fields cfg t).2.2.2.2.2

lemma uploadCache_networkCalls (cfg : SessionConfig) (t : SessionState)
    (h : t.taskSucceeded = false ∨ cfg.cacheEnabled = false) :
    (uploadCache cfg t).networkCalls = t.networkCalls := by
  by_cases hd : t.cacheUploadDone = true
  · rw [uploadCache_done cfg t hd]
  · rw [uploadCache_notDone cfg t (by simpa using hd)]
    exact uploadCacheBody_networkCalls cfg t h

lemma stepOp_trace (cfg : SessionConfig) (s : SessionState) (op : QueryOp)
    (h : FlagCount s) :
    FlagCount (stepOp cfg s op).1 ∧
    ((stepOp cfg s op).1.cacheUploadDone =
      (s.cacheUploadDone || isFinalizeTrigger (stepOp cfg s op).2)) := by
  have hef := ensureInit_fields cfg s
  have hflag1 : FlagCount (ensureInit cfg s) := by
    unfold FlagCount
    rw [hef.2.1, hef.2.2.1]
    exact h
  cases op with
  | next =>
      simp only [stepOp]
      split
      · have ht := uploadCache_trace cfg (ensureInit cfg s) hflag1
        refine ⟨ht.1, ?_⟩
        rw [ht.2]
        simp [isFinalizeTrigger]
      · split
        · rename_i m rest heq
          have htm := trackMessage_core cfg
            { ensureInit cfg s with innerPending := rest } m
          have hcd : (trackMessage cfg
              { ensureInit cfg s with innerPending := rest } m).cacheUploadDone =
              (ensureInit cfg s).cacheUploadDone := by
            rw [htm.cacheUploadDone]
            split <;> rfl
          have hfr : (trackMessage cfg
              { ensureInit cfg s with innerPending := rest } m).finalizeRuns =
              (ensureInit cfg s).finalizeRuns := by
            rw [htm.finalizeRuns]
            split <;> rfl
          constructor
          · show FlagCount (trackMessage cfg
              { ensureInit cfg s with innerPending := rest } m)
            unfold FlagCount
            rw [hcd, hfr]
            exact hflag1
          · show (trackMessage cfg
              { ensureInit cfg s with innerPending := rest } m).cacheUploadDone =
              (s.cacheUploadDone || isFinalizeTrigger (.yielded m))
            rw [hcd, hef.2.1]
            simp [isFinalizeTrigger]
        · have ht := uploadCache_trace cfg (ensureInit cfg s) hflag1
          refine ⟨ht.1, ?_⟩
          rw [ht.2]
          simp [isFinalizeTrigger]
  | ret =>
      simp only [stepOp]
      split
      · have ht := uploadCache_trace cfg s h
        constructor
        · unfold FlagCount
          show (uploadCache cfg s).finalizeRuns =
            if (uploadCache cfg s).cacheUploadDone then 1 else 0
          exact ht.1
        · show (uploadCache cfg s).cacheUploadDone =
            (s.cacheUploadDone || isFinalizeTrigger .returnedWithInner)
          rw [ht.2]
          simp [isFinalizeTrigger]
      · exact ⟨h, by simp [isFinalizeTrigger]⟩

lemma runOps_trace (cfg : SessionConfig) (ops : List QueryOp) (s : SessionState)
    (h : FlagCount s) :
    FlagCount (runOps cfg s ops).1 ∧
    ((runOps cfg s ops).1.cacheUploadDone =
      (s.cacheUploadDone || (runOps cfg s ops).2.any isFinalizeTrigger)) := by
  induction ops generalizing s with
  | nil => exact ⟨h, by simp [runOps]⟩
  | cons op rest ih =>
      have hstep := stepOp_trace cfg s op h
      have hrec := ih (stepOp cfg s op).1 hstep.1
      constructor
      · simpa only [runOps] using hrec.1
      · simp only [runOps, List.any_cons]
        rw [hrec.2, hstep.2]
        cases s.cacheUploadDone <;>
          cases isFinalizeTrigger (stepOp cfg s op).2 <;> simp

/-- C1: over every sequence of generator-protocol calls on a fresh
wrapper, the finalization body of _uploadCache runs exactly once when some
call triggered finalization (stream exhaustion seen by next(), or an early
return() after initialization) and never otherwise; in particular a second
trigger, such as resuming iteration after an early return, never runs it
again. -/
theorem raysurferQuery_finalize_once (cfg : SessionConfig) (ops : List QueryOp) :
    (runOps cfg initialState ops).1.finalizeRuns =
      (if (runOps cfg initialState ops).2.any isFinalizeTrigger then 1 else 0) := by
  have h := runOps_trace cfg ops initialState rfl
  have h1 : (runOps cfg initialState ops).1.finalizeRuns =
      if (runOps cfg initialState ops).1.cacheUploadDone then 1 else 0 := h.1
  rw [h1, h.2]
  rfl

/-- The terminal message kind that flips the success flag. -/
def isSuccessResult (m : SDKMessage) : Prop :=
  m.type = "result" ∧ m.subtype = some "success"

instance (m : SDKMessage) : Decidable (isSuccessResult m) :=
  inferInstanceAs (Decidable (_ ∧ _))

lemma stepOp_noSuccess (cfg : SessionConfig)
    (hstream : ∀ m ∈ cfg.stream, ¬ isSuccessResult m)
    (s : SessionState) (op : QueryOp)
    (h1 : s.taskSucceeded = false) (h2 : s.networkCalls = 0)
    (h3 : ∀ m ∈ s.innerPending, ¬ isSuccessResult m) :
    (stepOp cfg s op).1.taskSucceeded = false ∧
    (stepOp cfg s op).1.networkCalls = 0 ∧
    (∀ m ∈ (stepOp cfg s op).1.innerPending, ¬ isSuccessResult m) := by
  have hef := ensureInit_fields cfg s
  have htask1 : (ensureInit cfg s).taskSucceeded = false := hef.1.trans h1
  have hnet1 : (ensureInit cfg s).networkCalls = 0 := hef.2.2.2.1.trans h2
  have hpend1 : ∀ m ∈ (ensureInit cfg s).innerPending, ¬ isSuccessResult m := by
    rcases hef.2.2.2.2 with hEq | hEq <;> rw [hEq]
    · exact h3
    · exact hstream
  cases op with
  | next =>
      simp only [stepOp]
      split
      · refine ⟨?_, ?_, ?_⟩
        · show (uploadCache cfg (ensureInit cfg s)).taskSucceeded = false
          rw [uploadCache_taskSucceeded]
          exact htask1
        · show (uploadCache cfg (ensureInit cfg s)).networkCalls = 0
          rw [uploadCache_networkCalls cfg _ (Or.inl htask1)]
          exact hnet1
        · show ∀ m ∈ (uploadCache cfg (ensureInit cfg s)).innerPending,
            ¬ isSuccessResult m
          rw [uploadCache_innerPending]
          exact hpend1
      · split
        · rename_i m rest heq
          have hm : ¬ isSuccessResult m := hpend1 m (heq ▸ List.mem_cons_self m rest)
          have htm := trackMessage_core cfg
            { ensureInit cfg s with innerPending := rest } m
          have hif : (if m.type = "result" ∧ m.subtype = some "success" then
              { { ensureInit cfg s with innerPending := rest } with
                  taskSucceeded := true }
              else { ensureInit cfg s with innerPending := rest }) =
              { ensureInit cfg s with innerPending := rest } := by
            have hm' : ¬ (m.type = "result" ∧ m.subtype = some "success") := hm
            rw [if_neg hm']
          refine ⟨?_, ?_, ?_⟩
          · show (trackMessage cfg
              { ensureInit cfg s with innerPending := rest } m).taskSucceeded = false
            rw [htm.taskSucceeded, hif]
            exact htask1
          · show (trackMessage cfg
              { ensureInit cfg s with innerPending := rest } m).networkCalls = 0
            rw [htm.networkCalls, hif]
            exact hnet1
          · show ∀ m' ∈ (trackMessage cfg
              { ensureInit cfg s with innerPending := rest } m).innerPending,
              ¬ isSuccessResult m'
            rw [htm.innerPending, hif]
            intro m' hm'
            exact hpend1 m' (heq ▸ List.mem_cons_of_mem m hm')
        · refine ⟨?_, ?_, ?_⟩
          · show (uploadCache cfg (ensureInit cfg s)).taskSucceeded = false
            rw [uploadCache_taskSucceeded]
            exact htask1
          · show (uploadCache cfg (ensureInit cfg s)).networkCalls = 0
            rw [uploadCache_networkCalls cfg _ (Or.inl htask1)]
            exact hnet1
          · show ∀ m ∈ (uploadCache cfg (ensureInit cfg s)).innerPending,
              ¬ isSuccessResult m
            rw [uploadCache_innerPending]
            exact hpend1
  | ret =>
      simp only [stepOp]
      split
      · refine ⟨?_, ?_, ?_⟩
        · show ({ uploadCache cfg s with innerClosed := true }).taskSucceeded = false
          show (uploadCache cfg s).taskSucceeded = false
          rw [uploadCache_taskSucceeded]
          exact h1
        · show ({ uploadCache cfg s with innerClosed := true }).networkCalls = 0
          show (uploadCache cfg s).networkCalls = 0
          rw [uploadCache_networkCalls cfg _ (Or.inl h1)]
          exact h2
        · show ∀ m ∈ ({ uploadCache cfg s with
              innerClosed := true }).innerPending, ¬ isSuccessResult m
          show ∀ m ∈ (uploadCache cfg s).innerPending, ¬ isSuccessResult m
          rw [uploadCache_innerPending]
          exact h3
      · exact ⟨h1, h2, h3⟩

lemma stepOp_disabled (cfg : SessionConfig) (hcfg : cfg.cacheEnabled = false)
    (s : SessionState) (op : QueryOp) (h2 : s.networkCalls = 0) :
    (stepOp cfg s op).1.networkCalls = 0 := by
  have hef := ensureInit_fields cfg s
  have hnet1 : (ensureInit cfg s).networkCalls = 0 := hef.2.2.2.1.trans h2
  cases op with
  | next =>
      simp only [stepOp]
      split
      · show (uploadCache cfg (ensureInit cfg s)).networkCalls = 0
        rw [uploadCache_networkCalls cfg _ (Or.inr hcfg)]
        exact hnet1
      · split
        · rename_i m rest heq
          have htm := trackMessage_core cfg
            { ensureInit cfg s with innerPending := rest } m
          show (trackMessage cfg
            { ensureInit cfg s with innerPending := rest } m).networkCalls = 0
          rw [htm.networkCalls]
          have : ∀ t : SessionState,
              (if m.type = "result" ∧ m.subtype = some "success" then
                { t with taskSucceeded := true } else t).networkCalls =
              t.networkCalls := by
            intro t
            split <;> rfl
          rw [this]
          exact hnet1
        · show (uploadCache cfg (ensureInit cfg s)).networkCalls = 0
          rw [uploadCache_networkCalls cfg _ (Or.inr hcfg)]
          exact hnet1
  | ret =>
      simp only [stepOp]
      split
      · show ({ uploadCache cfg s with innerClosed := true }).networkCalls = 0
        show (uploadCache cfg s).networkCalls = 0
        rw [uploadCache_networkCalls cfg _ (Or.inr hcfg)]
        exact h2
      · exact h2

/-- C2: over every sequence of generator-protocol calls on a fresh
wrapper, no network upload is ever issued when the wrapped stream never
emits a result/success terminal message (the success flag is never set),
even with tracked file paths present; and none is issued when caching is
disabled. -/
theorem raysurferQuery_no_upload (cfg : SessionConfig) (ops : List QueryOp) :
    ((∀ m ∈ cfg.stream, ¬ isSuccessResult m) →
        (runOps cfg initialState ops).1.networkCalls = 0) ∧
    (cfg.cacheEnabled = false →
        (runOps cfg initialState ops).1.networkCalls = 0) := by
  constructor
  · intro hstream
    have h : ∀ (ops' : List QueryOp) (s : SessionState),
        s.taskSucceeded = false → s.networkCalls = 0 →
        (∀ m ∈ s.innerPending, ¬ isSuccessResult m) →
        (runOps cfg s ops').1.taskSucceeded = false ∧
        (runOps cfg s ops').1.networkCalls = 0 ∧
        (∀ m ∈ (runOps cfg s ops').1.innerPending, ¬ isSuccessResult m) := by
      intro ops'
      induction ops' with
      | nil => intro s h1 h2 h3; exact ⟨h1, h2, h3⟩
      | cons op rest ih =>
          intro s h1 h2 h3
          have hstep := stepOp_noSuccess cfg hstream s op h1 h2 h3
          have hrec := ih (stepOp cfg s op).1 hstep.1 hstep.2.1 hstep.2.2
          simpa only [runOps] using hrec
    exact (h ops initialState rfl rfl (by intro m hm; cases hm)).2.1
  · intro hcfg
    have h : ∀ (ops' : List QueryOp) (s : SessionState), s.networkCalls = 0 →
        (runOps cfg s ops').1.networkCalls = 0 := by
      intro ops'
      induction ops' with
      | nil => intro s h2; exact h2
      | cons op rest ih =>
          intro s h2
          have hstep := stepOp_disabled cfg hcfg s op h2
          have hrec := ih (stepOp cfg s op).1 hstep
          simpa only [runOps] using hrec
    exact h ops initialState rfl

/-- A Write tool_use message tracking the file a.ts. -/
def msgWriteA : SDKMessage :=
  { type := "assistant", subtype := none,
    blocks := [{ type := "tool_use", name := some "Write", text := none,
                 content := none,
                 input := some { filePath := some "a.ts", notebookPath := none,
                                 command := none } }] }

/-- A failed terminal message (result with a non-success subtype). -/
def msgFailed : SDKMessage :=
  { type := "result", subtype := some "error_max_turns", blocks := [] }

/-- A session whose stream tracks a file but never succeeds. -/
def cfgNoSuccess : SessionConfig :=
  { cacheEnabled := true, promptText := some "write code",
    parseRunForAiVoting := true, workDir := "w", retrievedFiles := [],
    stream := [msgWriteA, msgFailed],
    bashOutputFiles := fun _ => [], codeBlocksOf := fun _ => [],
    fs := fun p => if p = "a.ts" then some "content" else none }

/-- Witness for C2: a run that tracks a.ts, sees a failed terminal message
and exhausts the stream issues zero network calls. -/
theorem raysurferQuery_no_upload_witness :
    (runOps cfgNoSuccess initialState
        [QueryOp.next, QueryOp.next, QueryOp.next]).1.networkCalls = 0 ∧
    "a.ts" ∈ (runOps cfgNoSuccess initialState
        [QueryOp.next, QueryOp.next, QueryOp.next]).1.modifiedFilePaths := by
  refine ⟨(raysurferQuery_no_upload cfgNoSuccess
    [QueryOp.next, QueryOp.next, QueryOp.next]).1 ?_, ?_⟩
  · decide
  · decide

/-- Outcomes of a control method call on the wrapper. raisedNotInit is the
outcome the specification text describes for a pre-initialization call; it
is listed so that the specified behaviour is expressible, and the code
never produces it. -/
inductive ControlOutcome where
  | forwardedToInner
  | lazyInitThenForwarded
  | raisedNotInit
  deriving DecidableEq

/-- A control method of the wrapper (interrupt, setPermissionMode,
setModel, setMaxThinkingTokens, ...): each one awaits _ensureInit and then
forwards the call to the wrapped Query, so a call before initialization
runs the lazy initialization first instead of failing. -/
def controlCall (cfg : SessionConfig) (s : SessionState) :
    SessionState × ControlOutcome :=
  (ensureInit cfg s,
   if s.innerStarted then ControlOutcome.forwardedToInner
   else ControlOutcome.lazyInitThenForwarded)

/-- An empty-session configuration for concrete evaluation. -/
def cfgEmptySession : SessionConfig :=
  { cacheEnabled := false, promptText := none, parseRunForAiVoting := true,
    workDir := "w", retrievedFiles := [], stream := [],
    bashOutputFiles := fun _ => [], codeBlocksOf := fun _ => [],
    fs := fun _ => none }

/-- C9 counterexample: on a fresh wrapper, whose wrapped object does not
exist yet, a control call does not raise NotInitialized as the claim
states; it lazily initializes and forwards. -/
theorem controlCall_claim_counterexample :
    initialState.innerStarted = false ∧
    (controlCall cfgEmptySession initialState).2 =
      ControlOutcome.lazyInitThenForwarded ∧
    (controlCall cfgEmptySession initialState).2 ≠
      ControlOutcome.raisedNotInit := by
  refine ⟨rfl, rfl, ?_⟩
  decide

/-- C9 amended: a control call forwards to the wrapped object when it
exists and otherwise first runs the shared lazy initialization, creating
the wrapped object, and then forwards; no call ever raises a
NotInitialized error. -/
theorem controlCall_forwards_or_lazy_inits (cfg : SessionConfig) (s : SessionState) :
    (controlCall cfg s).2 ≠ ControlOutcome.raisedNotInit ∧
    (s.innerStarted = true →
        (controlCall cfg s).2 = ControlOutcome.forwardedToInner ∧
        (controlCall cfg s).1 = s) ∧
    (s.innerStarted = false →
        (controlCall cfg s).2 = ControlOutcome.lazyInitThenForwarded ∧
        (controlCall cfg s).1.innerStarted = true) := by
  refine ⟨?_, ?_, ?_⟩
  · unfold controlCall
    split <;> simp
  · intro h
    unfold controlCall ensureInit
    rw [h]
    exact ⟨by simp, by simp⟩
  · intro h
    unfold controlCall ensureInit
    rw [h]
    refine ⟨by simp, ?_⟩
    simp only [Bool.false_eq_true, if_false]
    exact (runInit_fields cfg s).1

/-- Witness for C9 amended: the fresh wrapper lazily initializes on the
first control call and forwards on the second. -/
theorem controlCall_forwards_or_lazy_inits_witness :
    (controlCall cfgEmptySession initialState).2 =
      ControlOutcome.lazyInitThenForwarded ∧
    (controlCall cfgEmptySession
        (controlCall cfgEmptySession initialState).1).2 =
      ControlOutcome.forwardedToInner := by
  have h1 := controlCall_forwards_or_lazy_inits cfgEmptySession initialState
  have h2 := controlCall_forwards_or_lazy_inits cfgEmptySession
    (controlCall cfgEmptySession initialState).1
  exact ⟨(h1.2.2 rfl).1, (h2.2.1 (h1.2.2 rfl).2).1⟩
